import Mathlib

/-!
Verification model of the `video-splitter` repository (two Python sources:
`ffmpeg-split.py` and `ffmpeg-merge.py`).

The embedding is shallow: each relevant Python function is translated into a
Lean definition over exact arithmetic (`Int`, `Nat`, `ℚ`).  Python floats that
only carry exact small integers/ratios are modelled as rationals;
`math.ceil(a / float(b))` becomes the rational ceiling, `int(x)` on a
nonnegative value becomes the rational floor.  External subprocess calls
(ffprobe / ffmpeg) are collaborators: the model takes their reported values as
parameters and returns the list of transcoder invocations instead of
performing them.  Python truthiness (`if x:` on an int is `x ≠ 0`, on a
string is `x ≠ ""`, on `None` is false) is modelled explicitly at each use.
-/

namespace VideoSplitter

/-- Function `ceildiv(a, b) = int(math.ceil(a / float(b)))` from `ffmpeg-split.py`
(lines 141–142), modelled as the exact integer ceiling
`⌈a/b⌉ = -⌊(-a)/b⌋` (`Int.fdiv` is floor division).  The Python version
raises `ZeroDivisionError` when `b = 0`; callers of this model guard that case
explicitly before calling (see `split_by_seconds`). -/
def ceildiv (a b : Int) : Int := -(Int.fdiv (-a) b)

/-- Python `s.split(".")` (every call site in the sources splits on the
literal dot), as structural recursion over the character list.  Matches
Python: `"".split(".") == [""]`, `"a..b".split(".") == ["a", "", "b"]`. -/
def splitDotChars : List Char → List (List Char)
  | [] => [[]]
  | c :: cs =>
    let rest := splitDotChars cs
    if c = '.' then [] :: rest
    else
      match rest with
      | [] => [[c]]
      | r :: rs => (c :: r) :: rs

/-- Python `s.split(".")` on a `String`. -/
def pySplitDot (s : String) : List String :=
  (splitDotChars s.toList).map fun l => ⟨l⟩

/-- Python `".".join(xs)`. -/
def joinDot : List String → String
  | [] => ""
  | [x] => x
  | x :: y :: xs => x ++ "." ++ joinDot (y :: xs)

/-- One planned transcoder invocation for the split tool: `ffmpeg -ss
start_time -t duration output_name` (codec and path handling elided as they do
not vary across segments). -/
structure SegmentDescriptor where
  start_time : Int
  duration : Int
  output_name : String
deriving Repr, DecidableEq

/-- The ways `split_by_seconds` terminates without producing a plan.
`invalidLength` and `trivialSplit` are the two `raise SystemExit` sites
(lines 147–149 and 154–156); `zeroDivisionError` is the uncaught Python
`ZeroDivisionError` raised inside `ceildiv` when the length is `0`, which the
truthiness-guarded length check lets through. -/
inductive SplitError where
  | invalidLength
  | trivialSplit
  | zeroDivisionError
deriving Repr, DecidableEq

/-- Function `split_by_seconds` from `ffmpeg-split.py` (lines 145–195), as a planner:
it returns the ordered list of transcoder invocations it would perform, or the
error that stops it.

Parameters: `basename` is `os.path.basename(filename)` (path splitting is
external); `split_length` is the resolved segment length; `video_length` is
the effective duration in seconds, i.e. the value of the Python variable
after the `if not video_length: video_length = get_video_length(filename)`
probe resolution (ffprobe durations are nonnegative, hence `Nat`).

Faithful points: the guard is literally `if split_length and
split_length <= 0`, so `split_length = 0` is falsy and skips the check,
reaching the division; `split_count == 1` is the only trivial-split test;
`split_start` is `0` when `n == 0` and `split_length * n` otherwise; the
output name is `f"{filebase}-{n+1}-of-{split_count}.{fileext}"` with
`filebase`/`fileext` from splitting the basename on `"."`. -/
def split_by_seconds (basename : String) (split_length : Int) (video_length : Nat) :
    Except SplitError (List SegmentDescriptor) :=
  if split_length ≠ 0 ∧ split_length ≤ 0 then
    .error .invalidLength
  else if split_length = 0 then
    .error .zeroDivisionError
  else
    let split_count := ceildiv video_length split_length
    if split_count = 1 then
      .error .trivialSplit
    else
      let parts := pySplitDot basename
      let filebase := joinDot parts.dropLast
      let fileext := parts.getLastD ""
      .ok <| (List.range split_count.toNat).map fun (n : Nat) =>
        { start_time := if n = 0 then 0 else split_length * (n : Int)
          duration := split_length
          output_name := filebase ++ "-" ++ toString (n + 1) ++ "-of-" ++
            toString split_count ++ "." ++ fileext }

/-- Choices of `--chunk-strategy` from the option parser (default `eager`). -/
inductive ChunkStrategy where
  | eager
  | even
deriving Repr, DecidableEq

/-- The ways the length-resolution block of `main` terminates without a
length: `missingSplitParameter` is the `bailout()` at lines 316–317;
`zeroDivisionError` is the Python crash in
`int(split_filesize / float(file_size) * video_length)` when the stat'ed
file size is `0`. -/
inductive ResolveError where
  | missingSplitParameter
  | zeroDivisionError
deriving Repr, DecidableEq

/-- Python truthiness of an optparse int option: `None` and `0` are falsy. -/
def otruthy (o : Option Int) : Bool :=
  match o with
  | none => false
  | some v => decide (v ≠ 0)

/-- The split-length resolution block of `main` in `ffmpeg-split.py`
(lines 302–318), given the probed `video_length` and stat'ed `file_size`.

`split_length`, `split_chunks`, `split_filesize` are the optparse values
(`None` when the flag is absent); the filesize factor is the exact fraction
`factor_num / factor_den` (default 95/100; Python stores it as a float, so
the model is exact where the float is, and ignores float rounding).

Control flow mirrored: if `options.split_length` is truthy it is used
directly (probing is deferred); otherwise the local `split_filesize`
becomes `int(options.split_filesize * factor)` when the option is truthy
(`int()` truncates toward zero, `Int.tdiv`); when that local value is truthy
and the strategy is `even`, `options.split_chunks` is overwritten with
`ceildiv(file_size, split_filesize)`; a truthy `options.split_chunks` then
sets `options.split_length = ceildiv(video_length, split_chunks)`; if the
length is still falsy and the local `split_filesize` is truthy, the eager
formula `int(split_filesize / float(file_size) * video_length)` applies
(exactly `trunc(split_filesize * video_length / file_size)`); a still-falsy
length reaches `bailout()`. -/
def resolve_split_length (split_length split_chunks split_filesize : Option Int)
    (factor_num factor_den : Nat) (strategy : ChunkStrategy)
    (video_length file_size : Nat) : Except ResolveError Int :=
  if otruthy split_length then
    .ok (split_length.getD 0)
  else
    let target : Option Int :=
      match split_filesize with
      | some s => if s ≠ 0 then some (Int.tdiv (s * factor_num) factor_den) else none
      | none => none
    let chunks : Option Int :=
      match target, strategy with
      | some t, .even => if t ≠ 0 then some (ceildiv file_size t) else split_chunks
      | _, _ => split_chunks
    let length1 : Option Int :=
      match chunks with
      | some c => if c ≠ 0 then some (ceildiv video_length c) else split_length
      | none => split_length
    if otruthy length1 then
      .ok (length1.getD 0)
    else
      match target with
      | some t =>
        if t ≠ 0 then
          if file_size = 0 then
            .error .zeroDivisionError
          else
            let l2 := Int.tdiv (t * video_length) file_size
            if l2 ≠ 0 then .ok l2 else .error .missingSplitParameter
        else .error .missingSplitParameter
      | none => .error .missingSplitParameter

/-- Modelled from the spec's words (section 4.1 resolution rules), for
comparison with `resolve_split_length`: 1. an explicit fixed length is used
directly; 2. else a supplied filesize determines the length (strategy EVEN:
`chunk_count = ceil(size_bytes/target)` then `length =
ceil(duration/chunk_count)`; strategy EAGER: `length =
floor(target/size_bytes*duration)`); 3. else a supplied count gives
`length = ceil(duration/count)`; 4. else `MissingSplitParameter`. -/
def spec_resolve_split_length (split_length split_chunks split_filesize : Option Int)
    (factor_num factor_den : Nat) (strategy : ChunkStrategy)
    (video_length file_size : Nat) : Except ResolveError Int :=
  if otruthy split_length then
    .ok (split_length.getD 0)
  else if otruthy split_filesize then
    let t := Int.tdiv ((split_filesize.getD 0) * factor_num) factor_den
    match strategy with
    | .even =>
      let chunk_count := ceildiv file_size t
      .ok (ceildiv video_length chunk_count)
    | .eager =>
      .ok (Int.tdiv (t * video_length) file_size)
  else if otruthy split_chunks then
    .ok (ceildiv video_length (split_chunks.getD 0))
  else
    .error .missingSplitParameter

/-- A missing required manifest key (`except KeyError` at lines 118–129;
the handler prints the expected shape and raises `SystemExit`). -/
inductive ManifestError where
  | keyError (key : String)
deriving Repr, DecidableEq

/-- Selection of the `-t` (duration) argument for one flat manifest entry
(`ffmpeg-split.py` lines 99–101): `split_length =
video_config.get("end_time", None)`, and `if not split_length:
split_length = video_config["length"]`.  A present, truthy (nonzero)
`end_time` is passed through as the duration; otherwise the `length` key is
read, raising `KeyError` when absent.  No `end_time - start_time`
subtraction occurs anywhere.  (Manifest times are modelled as integers; the
selection logic never inspects the value beyond truthiness.) -/
def entry_duration (end_time length : Option Int) : Except ManifestError Int :=
  match end_time with
  | some e =>
    if e ≠ 0 then .ok e
    else
      match length with
      | some l => .ok l
      | none => .error (.keyError "length")
  | none =>
    match length with
    | some l => .ok l
    | none => .error (.keyError "length")

/-- Python's substring test `needle in haystack` on strings. -/
def pyIn (needle haystack : String) : Bool :=
  decide (needle.toList <:+: haystack.toList)

/-- Output file base/name computation for one flat manifest entry
(`ffmpeg-split.py` lines 102–110): `filebase = video_config["rename_to"]`,
then `if fileext in filebase: filebase = ".".join(filebase.split(".")[:-1])`,
and the output path ends in `filebase + "." + fileext`.  Note the membership
test is a substring test on the whole of `rename_to`, not an extension
test. -/
def output_name (fileext rename_to : String) : String :=
  let filebase :=
    if pyIn fileext rename_to then
      joinDot ((pySplitDot rename_to).dropLast)
    else rename_to
  filebase ++ "." ++ fileext

/-- One clip of the structured (`input_file`/`output_clips`) manifest
schema. -/
structure OutputClip where
  start_time : Int
  length : Int
deriving Repr, DecidableEq

/-- The structured JSON manifest root: an object with `input_file` and
`output_clips`. -/
structure StructuredManifest where
  input_file : String
  output_clips : List OutputClip
deriving Repr, DecidableEq

/-- One entry of the flat per-segment config produced from the structured
schema (`ffmpeg-split.py` lines 50–61): all three keys are always
present. -/
structure ConfigItem where
  start_time : Int
  length : Int
  rename_to : String
deriving Repr, DecidableEq

/-- Filename resolution and config generation for the structured schema
(`ffmpeg-split.py` lines 47–61): `if not filename: filename =
config_data["input_file"]` (so a truthy caller-supplied filename wins, and
an absent or empty one defers to the manifest), then each
`output_clips[i]` becomes `{start_time, length, rename_to =
f"clip-{i}.{fileext}"}` with `fileext = filename.split(".")[-1]` of the
resolved filename. -/
def resolve_structured (caller_filename : Option String) (m : StructuredManifest) :
    String × List ConfigItem :=
  let filename :=
    match caller_filename with
    | some f => if f ≠ "" then f else m.input_file
    | none => m.input_file
  let fileext := (pySplitDot filename).getLastD ""
  (filename,
    m.output_clips.enum.map fun p =>
      { start_time := p.2.start_time
        length := p.2.length
        rename_to := "clip-" ++ toString p.1 ++ "." ++ fileext })

/-- The structured-manifest path of `split_by_manifest` end to end: resolve
the filename and config (lines 47–61), then run the transcode loop (lines
95–113) over the generated config.  Generated config items never carry an
`end_time` key, so the loop's duration selection always passes `length`;
the output name goes through the extension strip/re-append step. -/
def split_by_manifest_structured (caller_filename : Option String)
    (m : StructuredManifest) : String × List SegmentDescriptor :=
  let r := resolve_structured caller_filename m
  let fileext := (pySplitDot r.1).getLastD ""
  (r.1,
    r.2.map fun item =>
      { start_time := item.start_time
        duration := item.length
        output_name := output_name fileext item.rename_to })

/-- One probed media asset, as returned by `get_video_info` in
`ffmpeg-merge.py` (lines 42–48): the video stream's codec and dimensions,
the container's format name, and the file path.  Probing itself (ffprobe)
is an external collaborator; the checker below models the post-probe logic
over successfully probed assets. -/
structure MediaAsset where
  codec_name : String
  width : Int
  height : Int
  format_name : String
  file_path : String
deriving Repr, DecidableEq

/-- Result of the compatibility check: the boolean-and-payload pair returned
by `check_videos_compatibility` (`True, video_infos` or `False, reason`). -/
inductive CompatResult where
  | compatible (infos : List MediaAsset)
  | incompatible (reason : String)
deriving Repr, DecidableEq

/-- The reference-comparison loop of `check_videos_compatibility`
(`ffmpeg-merge.py` lines 73–78): walk the remaining assets in order and
return the first mismatch reason, if any.  Each asset is compared to the
reference first by `codec_name`, then by `width`/`height` together
(reported as one "resolution" reason naming both full resolutions);
`format_name` is read by the prober but never compared.  The loop
`return`s on the first mismatch. -/
def first_mismatch (reference : MediaAsset) : List MediaAsset → Option String
  | [] => none
  | info :: rest =>
    if info.codec_name ≠ reference.codec_name then
      some ("Incompatible codec: " ++ reference.codec_name ++ " vs " ++ info.codec_name)
    else if info.width ≠ reference.width ∨ info.height ≠ reference.height then
      some ("Incompatible resolution: " ++ toString reference.width ++ "x" ++
        toString reference.height ++ " vs " ++ toString info.width ++ "x" ++
        toString info.height)
    else first_mismatch reference rest

/-- Function `check_videos_compatibility` (`ffmpeg-merge.py` lines 56–80) over the
successfully probed asset list: an empty list is rejected; otherwise the
first asset is the reference and the first mismatch in input order decides;
on success the full input list is returned in its original order. -/
def check_videos_compatibility (video_infos : List MediaAsset) : CompatResult :=
  match video_infos with
  | [] => .incompatible "No video files found"
  | reference :: rest =>
    match first_mismatch reference rest with
    | some reason => .incompatible reason
    | none => .compatible video_infos

/-- Python `path.replace("'", "'\\''")` from `ffmpeg-merge.py` line 91: the
pattern is the one-character string `'`, so the replacement is a per-character
map (`\x27` is the single-quote character). -/
def escapeQuotes : List Char → List Char
  | [] => []
  | c :: cs =>
    if c = '\x27' then '\x27' :: '\\' :: '\x27' :: '\x27' :: escapeQuotes cs
    else c :: escapeQuotes cs

/-- One line of the transient concat list (`ffmpeg-merge.py` lines 87–92,
without the trailing newline): the absolute path is single-quoted with any
single quote replaced by the close-escape-reopen sequence.
(`Path(...).absolute()` is external, so the model takes the path as
given.) -/
def concat_line (file_path : String) : String :=
  "file \x27" ++ (⟨escapeQuotes file_path.toList⟩ : String) ++ "\x27"

/-- Observable effects of one `merge_videos` run on the shared state: the
temp concat list is written, the transcoder is invoked, the temp file is
removed. -/
inductive MergeEvent where
  | createConcatList (lines : List String)
  | invokeTranscoder
  | removeConcatList
deriving Repr, DecidableEq

/-- Whether the temp concat list exists after a sequence of events. -/
def tempExistsAfter (events : List MergeEvent) : Bool :=
  events.foldl
    (fun exists_now e =>
      match e with
      | .createConcatList _ => true
      | .invokeTranscoder => exists_now
      | .removeConcatList => false)
    false

/-- Function `merge_videos` (`ffmpeg-merge.py` lines 82–123) as an event trace over
the transient concat-list resource, parameterised by whether the external
transcoder call succeeds (`subprocess.check_call` raising
`CalledProcessError` on nonzero exit).  On success: write list, invoke,
`os.remove`, return `True`.  On failure: the handler removes the temp file
if it exists (it does: it was just written) and returns `False`.  Output
path extension fix-up (lines 94–103) does not touch the temp resource and
is elided. -/
def merge_videos (video_infos : List MediaAsset) (transcode_succeeds : Bool) :
    List MergeEvent × Bool :=
  let lines := video_infos.map fun info => concat_line info.file_path
  let pre := [MergeEvent.createConcatList lines, MergeEvent.invokeTranscoder]
  if transcode_succeeds then
    (pre ++ [MergeEvent.removeConcatList], true)
  else
    ((if tempExistsAfter pre then pre ++ [MergeEvent.removeConcatList] else pre), false)

/-- The model `ceildiv` really is the rational ceiling, for positive divisor. -/
theorem ceildiv_eq_ceil (a b : Int) (hb : 0 < b) : ceildiv a b = ⌈(a : ℚ) / (b : ℚ)⌉ := by
  have hb2 : ((b.toNat : ℕ) : ℚ) = (b : ℚ) := by
    exact_mod_cast congrArg (fun z : ℤ => (z : ℚ)) (Int.toNat_of_nonneg hb.le)
  have h1 : ((-a : ℤ) : ℚ) / ((b.toNat : ℕ) : ℚ) = -((a : ℚ) / (b : ℚ)) := by
    rw [hb2]
    push_cast
    ring
  calc ceildiv a b = -((-a) / b) := by rw [ceildiv, Int.fdiv_eq_ediv _ hb.le]
    _ = -((-a) / (b.toNat : ℤ)) := by rw [Int.toNat_of_nonneg hb.le]
    _ = -⌊((-a : ℤ) : ℚ) / ((b.toNat : ℕ) : ℚ)⌋ := by rw [Rat.floor_intCast_div_natCast]
    _ = -⌊-((a : ℚ) / (b : ℚ))⌋ := by rw [h1]
    _ = ⌈(a : ℚ) / (b : ℚ)⌉ := by rw [Int.floor_neg, neg_neg]

/-- Ceiling division by a positive divisor dominates the dividend:
`a ≤ b * ceildiv a b`. -/
theorem le_mul_ceildiv (a b : Int) (hb : 0 < b) : a ≤ b * ceildiv a b := by
  have hbq : (0 : ℚ) < (b : ℚ) := by exact_mod_cast hb
  have h : (a : ℚ) / (b : ℚ) ≤ (⌈(a : ℚ) / (b : ℚ)⌉ : ℚ) := Int.le_ceil _
  rw [div_le_iff₀ hbq] at h
  rw [ceildiv_eq_ceil a b hb]
  have h2 : (a : ℚ) ≤ ((b * ⌈(a : ℚ) / (b : ℚ)⌉ : ℤ) : ℚ) := by push_cast; linarith
  exact_mod_cast h2

/-- Ceiling division of a nonnegative dividend by a positive divisor is
nonnegative. -/
theorem ceildiv_nonneg (a b : Int) (ha : 0 ≤ a) (hb : 0 < b) : 0 ≤ ceildiv a b := by
  rw [ceildiv_eq_ceil a b hb]
  have hbq : (0 : ℚ) < (b : ℚ) := by exact_mod_cast hb
  have haq : (0 : ℚ) ≤ (a : ℚ) := by exact_mod_cast ha
  exact Int.ceil_nonneg (div_nonneg haq hbq.le)

/-- C1 (amended): for every duration > 0 and resolved length > 0 whose
segment count `ceil(duration/length)` is at least 2, `split_by_seconds`
produces exactly `ceil(duration/length)` segment descriptors; descriptor at
0-based position `i` (segment number `i+1`) has start time `i*length`,
duration `length`, and output name `<basename>-<i+1>-of-<count>.<ext>`, and
the last descriptor satisfies `start_time + length ≥ duration`.  (The
original claim quantified over all positive durations and lengths; the code
refuses a segment count of exactly 1, see the trivial-split theorems.) -/
theorem split_by_seconds_plan (basename : String) (video_length : Nat) (split_length : Int)
    (hd : 0 < video_length) (hl : 0 < split_length)
    (hcount : 2 ≤ ceildiv video_length split_length) :
    ∃ segs, split_by_seconds basename split_length video_length = .ok segs ∧
      (segs.length : Int) = ceildiv video_length split_length ∧
      (∀ i, ∀ hi : i < segs.length,
        (segs.get ⟨i, hi⟩).start_time = split_length * (i : Int) ∧
        (segs.get ⟨i, hi⟩).duration = split_length ∧
        (segs.get ⟨i, hi⟩).output_name =
          joinDot ((pySplitDot basename).dropLast) ++ "-" ++
            toString (i + 1) ++ "-of-" ++ toString (ceildiv video_length split_length) ++
            "." ++ (pySplitDot basename).getLastD "") ∧
      (∀ i, ∀ hi : i < segs.length, i + 1 = segs.length →
        (video_length : Int) ≤ (segs.get ⟨i, hi⟩).start_time + (segs.get ⟨i, hi⟩).duration) := by
  have h0 : ¬ split_length = 0 := by omega
  have h1 : ¬ (split_length ≠ 0 ∧ split_length ≤ 0) := by
    rintro ⟨-, hle⟩
    omega
  have hc1 : ¬ ceildiv (video_length : Int) split_length = 1 := by omega
  have hcpos : (0 : Int) ≤ ceildiv (video_length : Int) split_length := by omega
  simp only [split_by_seconds, if_neg h1, if_neg h0, if_neg hc1]
  refine ⟨_, rfl, ?_, ?_, ?_⟩
  · simp only [List.length_map, List.length_range]
    exact Int.toNat_of_nonneg hcpos
  · intro i hi
    simp only [List.length_map, List.length_range] at hi
    simp only [List.get_eq_getElem, List.getElem_map, List.getElem_range]
    refine ⟨?_, by simp, by simp⟩
    by_cases h : i = 0
    · subst h
      simp
    · rw [if_neg h]
  · intro i hi hlast
    simp only [List.length_map, List.length_range] at hlast
    simp only [List.get_eq_getElem, List.getElem_map, List.getElem_range]
    have hieq : (i : Int) + 1 = ceildiv (video_length : Int) split_length := by
      have := Int.toNat_of_nonneg hcpos
      omega
    have hmul := le_mul_ceildiv (video_length : Int) split_length hl
    by_cases h : i = 0
    · subst h
      exfalso
      omega
    · rw [if_neg h]
      calc (video_length : Int) ≤ split_length * ceildiv (video_length : Int) split_length :=
            hmul
        _ = split_length * ((i : Int) + 1) := by rw [hieq]
        _ = split_length * (i : Int) + split_length := by ring

/-- Witness for the segment-plan theorem at the end-to-end scenario
duration 25, length 10. -/
theorem split_by_seconds_plan_witness :
    ∃ segs, split_by_seconds "sample.mp4" 10 25 = Except.ok segs ∧
      (segs.length : Int) = 3 := by
  obtain ⟨segs, hok, hlen, -, -⟩ :=
    split_by_seconds_plan "sample.mp4" 25 10 (by decide) (by decide) (by decide)
  refine ⟨segs, hok, ?_⟩
  rw [hlen]
  decide

/-- C1 counterexample to the claim as stated: at duration 8 > 0 and length
10 > 0 the planner does not produce `ceil(8/10) = 1` descriptors; it stops
with the trivial-split error. -/
theorem split_by_seconds_plan_counterexample :
    ceildiv 8 10 = 1 ∧
      split_by_seconds "in.mp4" 10 8 = Except.error SplitError.trivialSplit := by
  exact ⟨by decide, rfl⟩

/-- C6 (amended): for every length > 0, the planner fails with the
trivial-split error exactly when the resolved segment count
`ceil(duration/length)` equals 1; when the segment count is 0 (duration 0)
it instead returns an empty plan, so no transcoder invocation happens in
either case.  (The original claim said it fails whenever the count is at
most 1; the code only tests `split_count == 1`.) -/
theorem split_by_seconds_trivial_iff (basename : String) (video_length : Nat)
    (split_length : Int) (hl : 0 < split_length) :
    (split_by_seconds basename split_length video_length =
        Except.error SplitError.trivialSplit ↔
      ceildiv video_length split_length = 1) ∧
    (ceildiv video_length split_length = 0 →
      split_by_seconds basename split_length video_length = Except.ok []) := by
  have h0 : ¬ split_length = 0 := by omega
  have h1 : ¬ (split_length ≠ 0 ∧ split_length ≤ 0) := by
    rintro ⟨-, hle⟩
    omega
  constructor
  · constructor
    · intro h
      by_contra hc
      simp only [split_by_seconds, if_neg h1, if_neg h0, if_neg hc] at h
      exact Except.noConfusion h
    · intro hc
      simp only [split_by_seconds, if_neg h1, if_neg h0, if_pos hc]
  · intro hc
    have hc1 : ¬ ceildiv (video_length : Int) split_length = 1 := by omega
    simp only [split_by_seconds, if_neg h1, if_neg h0, if_neg hc1, hc]
    simp

/-- Witness for the trivial-split theorem at the spec scenario duration 8,
length 10: the planner fails because the count is 1. -/
theorem split_by_seconds_trivial_iff_witness :
    split_by_seconds "in.mp4" 10 8 = Except.error SplitError.trivialSplit := by
  exact (split_by_seconds_trivial_iff "in.mp4" 8 10 (by decide)).1.mpr (by decide)

/-- C6 counterexample to the claim as stated: duration 0 with length 10 has
resolved segment count `ceil(0/10) = 0 ≤ 1`, yet the planner does not fail;
it returns an empty plan. -/
theorem split_by_seconds_trivial_counterexample :
    ceildiv 0 10 = 0 ∧ split_by_seconds "in.mp4" 10 0 = Except.ok [] := by
  exact ⟨by decide, rfl⟩

/-- C7: the length guard `if split_length and split_length <= 0` treats a
length of exactly 0 as falsy, so a zero length bypasses the intended
invalid-length exit (whose own message says a length of 0 is invalid) and
the run crashes with `ZeroDivisionError` inside `ceildiv`; a negative
length does take the invalid-length exit. -/
theorem split_by_seconds_zero_length_bug :
    split_by_seconds "in.mp4" 0 8 = Except.error SplitError.zeroDivisionError ∧
      split_by_seconds "in.mp4" (-2) 8 = Except.error SplitError.invalidLength := by
  exact ⟨rfl, rfl⟩

/-- Unfolding truthiness on a present option value. -/
theorem otruthy_some (v : Int) : otruthy (some v) = decide (v ≠ 0) := rfl

/-- C2 counterexample: with the default strategy `eager`, a supplied chunk
count 2 and a supplied filesize 500 bytes (factor 95/100) on a 1000-byte,
100-second file, the code resolves the length from the count
(`ceildiv(100, 2) = 50`), while the spec's priority order says the filesize
policy decides first (`int(475/1000*100) = 47`). -/
theorem resolve_split_length_counterexample :
    resolve_split_length none (some 2) (some 500) 95 100 .eager 100 1000 =
        Except.ok 50 ∧
      spec_resolve_split_length none (some 2) (some 500) 95 100 .eager 100 1000 =
        Except.ok 47 ∧
      (50 : Int) ≠ 47 := by
  exact ⟨rfl, rfl, by decide⟩

/-- C2 (amended): an explicit nonzero length is used directly; with strategy
EVEN a truthy filesize determines the length through the size-derived chunk
count, overriding any supplied count; with strategy EAGER a truthy supplied
count takes priority over the filesize policy, the length being
`ceil(duration/count)`; when length, count and filesize are all falsy the
run fails with `MissingSplitParameter`. -/
theorem resolve_split_length_priority
    (split_length split_chunks split_filesize : Option Int)
    (factor_num factor_den : Nat) (strategy : ChunkStrategy)
    (video_length file_size : Nat) :
    (∀ l : Int, l ≠ 0 → split_length = some l →
      resolve_split_length split_length split_chunks split_filesize factor_num
        factor_den strategy video_length file_size = .ok l) ∧
    (otruthy split_length = false →
      ∀ s : Int, split_filesize = some s → s ≠ 0 →
        Int.tdiv (s * factor_num) factor_den ≠ 0 →
        ceildiv file_size (Int.tdiv (s * factor_num) factor_den) ≠ 0 →
        ceildiv video_length
            (ceildiv file_size (Int.tdiv (s * factor_num) factor_den)) ≠ 0 →
        resolve_split_length split_length split_chunks split_filesize factor_num
          factor_den .even video_length file_size =
          .ok (ceildiv video_length
            (ceildiv file_size (Int.tdiv (s * factor_num) factor_den)))) ∧
    (otruthy split_length = false →
      ∀ c : Int, split_chunks = some c → c ≠ 0 → ceildiv video_length c ≠ 0 →
        resolve_split_length split_length split_chunks split_filesize factor_num
          factor_den .eager video_length file_size =
          .ok (ceildiv video_length c)) ∧
    (otruthy split_length = false → otruthy split_chunks = false →
      otruthy split_filesize = false →
      resolve_split_length split_length split_chunks split_filesize factor_num
        factor_den strategy video_length file_size =
        .error .missingSplitParameter) := by
  refine ⟨?_, ?_, ?_, ?_⟩
  · intro l hl hsl
    subst hsl
    simp [resolve_split_length, otruthy, hl]
  · intro hsl s hfs hs ht hcc hlen
    subst hfs
    simp [resolve_split_length, otruthy_some, hsl, hs, ht, hcc, hlen]
  · intro hsl c hc hcne hlen
    subst hc
    rcases split_filesize with - | s
    · simp [resolve_split_length, otruthy_some, hsl, hcne, hlen]
    · by_cases hs : s = 0
      · subst hs
        simp [resolve_split_length, otruthy_some, hsl, hcne, hlen]
      · simp [resolve_split_length, otruthy_some, hsl, hs, hcne, hlen]
  · intro hsl hsc hsf
    have hslf : otruthy split_length = false := hsl
    rcases split_filesize with - | s
    · rcases split_chunks with - | c
      · simp [resolve_split_length, hsl]
      · have hc : c = 0 := by
          simpa [otruthy] using hsc
        subst hc
        simp [resolve_split_length, hsl]
    · have hs : s = 0 := by
        simpa [otruthy] using hsf
      subst hs
      rcases split_chunks with - | c
      · simp [resolve_split_length, hsl]
      · have hc : c = 0 := by
          simpa [otruthy] using hsc
        subst hc
        simp [resolve_split_length, hsl]

/-- Witness for the priority theorem: each of the four branches at concrete
inputs.  Explicit length 7 wins; with EVEN, filesize 500 (factor 95/100,
target 475) on a 950-byte 100-second file gives chunk count 2 and length 50
even though a count of 3 was also supplied; with EAGER, count 2 beats the
supplied filesize; with nothing supplied the run fails. -/
theorem resolve_split_length_priority_witness :
    resolve_split_length (some 7) (some 2) (some 500) 95 100 .even 100 950 =
        Except.ok 7 ∧
      resolve_split_length none (some 3) (some 500) 95 100 .even 100 950 =
        Except.ok 50 ∧
      resolve_split_length none (some 2) (some 500) 95 100 .eager 100 1000 =
        Except.ok 50 ∧
      resolve_split_length none none none 95 100 .eager 100 1000 =
        Except.error .missingSplitParameter := by
  refine ⟨?_, ?_, ?_, ?_⟩
  · exact (resolve_split_length_priority (some 7) (some 2) (some 500) 95 100 .even
      100 950).1 7 (by decide) rfl
  · exact (resolve_split_length_priority none (some 3) (some 500) 95 100 .even
      100 950).2.1 rfl 500 rfl (by decide) (by decide) (by decide) (by decide)
  · exact (resolve_split_length_priority none (some 2) (some 500) 95 100 .eager
      100 1000).2.2.1 rfl 2 rfl (by decide) (by decide)
  · exact (resolve_split_length_priority none none none 95 100 .eager
      100 1000).2.2.2 rfl rfl rfl

/-- Python `int(a / float(d))` for nonnegative `a` and positive `d` is the
rational floor (`Int.tdiv` truncates toward zero, which is floor on
nonnegative values). -/
theorem tdiv_nonneg_eq_floor (a : Int) (d : Nat) (ha : 0 ≤ a) (hd : 0 < d) :
    Int.tdiv a d = ⌊(a : ℚ) / ((d : ℕ) : ℚ)⌋ := by
  rw [Int.tdiv_eq_ediv ha (by exact_mod_cast hd.le), Rat.floor_intCast_div_natCast]

/-- Ceiling division of positives is positive. -/
theorem ceildiv_pos (a b : Int) (ha : 0 < a) (hb : 0 < b) : 0 < ceildiv a b := by
  rw [ceildiv_eq_ceil a b hb]
  have h : (0 : ℚ) < (a : ℚ) / (b : ℚ) :=
    div_pos (by exact_mod_cast ha) (by exact_mod_cast hb)
  exact Int.ceil_pos.mpr h

/-- When the divisor divides evenly, `ceildiv` is exact division, and
dividing by the quotient recovers the divisor. -/
theorem ceildiv_of_dvd (d c : Int) (hd : 0 < d) (hc : 0 < c) (hdvd : c ∣ d) :
    ceildiv d c = d / c ∧ ceildiv d (d / c) = c := by
  obtain ⟨k, hk⟩ := hdvd
  have hcne : c ≠ 0 := hc.ne'
  have hkd : d / c = k := by rw [hk, Int.mul_ediv_cancel_left _ hcne]
  have hkpos : 0 < k := by
    rcases lt_trichotomy k 0 with h | h | h
    · nlinarith
    · subst h
      simp at hk
      omega
    · exact h
  have hcq : (c : ℚ) ≠ 0 := by exact_mod_cast hcne
  have hkq : (k : ℚ) ≠ 0 := by exact_mod_cast hkpos.ne'
  constructor
  · rw [ceildiv_eq_ceil d c hc, hkd, hk]
    have he : ((c * k : ℤ) : ℚ) / (c : ℚ) = ((k : ℤ) : ℚ) := by
      push_cast
      field_simp
    rw [he, Int.ceil_intCast]
  · rw [hkd, ceildiv_eq_ceil d k hkpos, hk]
    have he : ((c * k : ℤ) : ℚ) / (k : ℚ) = ((c : ℤ) : ℚ) := by
      push_cast
      field_simp
    rw [he, Int.ceil_intCast]

/-- C8: with strategy EVEN and a truthy filesize `s` (factor
`factor_num/factor_den`), the target is `floor(s * factor)`, the computed
chunk count is `ceil(size_bytes / target)`, the resolved length is
`ceil(duration / chunk_count)`, and whenever the chunk count divides the
duration evenly, enumerating segments of the resolved length yields exactly
`chunk_count` segments. -/
theorem resolve_even_chunk_count (s : Int) (split_chunks : Option Int)
    (factor_num factor_den : Nat) (video_length file_size : Nat)
    (hs : 0 < s) (hfd : 0 < factor_den)
    (ht : 0 < Int.tdiv (s * factor_num) factor_den)
    (hsize : 0 < file_size) (hdur : 0 < video_length) :
    Int.tdiv (s * factor_num) factor_den =
        ⌊(s : ℚ) * ((factor_num : ℚ) / (factor_den : ℚ))⌋ ∧
      ceildiv file_size (Int.tdiv (s * factor_num) factor_den) =
        ⌈(file_size : ℚ) / ((Int.tdiv (s * factor_num) factor_den : Int) : ℚ)⌉ ∧
      resolve_split_length none split_chunks (some s) factor_num factor_den .even
          video_length file_size =
        .ok (ceildiv video_length
          (ceildiv file_size (Int.tdiv (s * factor_num) factor_den))) ∧
      (ceildiv file_size (Int.tdiv (s * factor_num) factor_den) ∣ (video_length : Int) →
        ceildiv video_length
            (ceildiv video_length
              (ceildiv file_size (Int.tdiv (s * factor_num) factor_den))) =
          ceildiv file_size (Int.tdiv (s * factor_num) factor_den)) := by
  have hcc : 0 < ceildiv file_size (Int.tdiv (s * factor_num) factor_den) :=
    ceildiv_pos _ _ (by exact_mod_cast hsize) ht
  have hlen : 0 < ceildiv video_length
      (ceildiv file_size (Int.tdiv (s * factor_num) factor_den)) :=
    ceildiv_pos _ _ (by exact_mod_cast hdur) hcc
  refine ⟨?_, ?_, ?_, ?_⟩
  · have he : (s : ℚ) * ((factor_num : ℚ) / (factor_den : ℚ)) =
        ((s * factor_num : ℤ) : ℚ) / ((factor_den : ℕ) : ℚ) := by
      push_cast
      ring
    rw [he, tdiv_nonneg_eq_floor _ _ (by positivity) hfd]
  · exact ceildiv_eq_ceil _ _ ht
  · simp [resolve_split_length, otruthy, otruthy_some, hs.ne', ht.ne', hcc.ne', hlen.ne']
  · intro hdvd
    obtain ⟨h1, h2⟩ := ceildiv_of_dvd (video_length : Int)
      (ceildiv file_size (Int.tdiv (s * factor_num) factor_den))
      (by exact_mod_cast hdur) hcc hdvd
    rw [h1, h2]

/-- Witness for the EVEN-strategy theorem: filesize 500, factor 95/100
(target 475), file size 950 bytes, duration 100 s: chunk count 2, length
50, and 2 divides 100 so the segment count is the chunk count again. -/
theorem resolve_even_chunk_count_witness :
    resolve_split_length none none (some 500) 95 100 .even 100 950 =
        Except.ok (ceildiv 100 (ceildiv 950 (Int.tdiv (500 * 95) 100))) ∧
      ceildiv 100 (ceildiv 100 (ceildiv 950 (Int.tdiv (500 * 95) 100))) =
        ceildiv 950 (Int.tdiv (500 * 95) 100) := by
  obtain ⟨-, -, h3, h4⟩ := resolve_even_chunk_count 500 none 95 100 100 950
    (by decide) (by decide) (by decide) (by decide) (by decide)
  exact ⟨h3, h4 ⟨50, by decide⟩⟩

/-- C3 counterexample to the claim as stated: an entry supplying both
`length = 5` and `end_time = 20` passes 20 (the `end_time` value) as the
duration, not the `length` field. -/
theorem entry_duration_counterexample :
    entry_duration (some 20) (some 5) = Except.ok 20 ∧ (20 : Int) ≠ 5 := by
  exact ⟨rfl, by decide⟩

/-- C3 (amended): the duration passed to the transcoder is the entry's
`end_time` value whenever that field is present and truthy (nonzero), and
only otherwise the `length` field is used; when both fields are present
exactly one of the two supplied values is passed through unchanged — no
`end_time - start_time` subtraction is ever performed. -/
theorem entry_duration_priority (end_time length : Option Int) :
    (∀ e, end_time = some e → e ≠ 0 →
      entry_duration end_time length = Except.ok e) ∧
    (otruthy end_time = false → ∀ l, length = some l →
      entry_duration end_time length = Except.ok l) ∧
    (∀ e l, end_time = some e → length = some l →
      entry_duration end_time length = Except.ok e ∨
        entry_duration end_time length = Except.ok l) := by
  refine ⟨?_, ?_, ?_⟩
  · intro e he hne
    subst he
    simp [entry_duration, hne]
  · intro hfalsy l hl
    subst hl
    rcases end_time with - | e
    · rfl
    · have he : e = 0 := by simpa [otruthy] using hfalsy
      subst he
      simp [entry_duration]
  · intro e l he hl
    subst he
    subst hl
    by_cases hne : e = 0
    · subst hne
      right
      simp [entry_duration]
    · left
      simp [entry_duration, hne]

/-- Witness for the duration-priority theorem: a truthy end_time 20 wins
over length 5; a falsy end_time 0 and an absent end_time fall back to the
length. -/
theorem entry_duration_priority_witness :
    entry_duration (some 20) (some 5) = Except.ok 20 ∧
      entry_duration (some 0) (some 5) = Except.ok 5 ∧
      entry_duration none (some 7) = Except.ok 7 := by
  refine ⟨?_, ?_, ?_⟩
  · exact (entry_duration_priority (some 20) (some 5)).1 20 rfl (by decide)
  · exact (entry_duration_priority (some 0) (some 5)).2.1 (by decide) 5 rfl
  · exact (entry_duration_priority none (some 7)).2.1 (by decide) 7 rfl

/-- C9 counterexample to the claim as stated: `rename_to = "my-mp4-clip"`
does not carry the extension `mp4` (it merely contains the string), yet the
code strips its (only) dot-component and produces `".mp4"` instead of the
claimed `"my-mp4-clip.mp4"`. -/
theorem output_name_counterexample :
    output_name "mp4" "my-mp4-clip" = ".mp4" ∧
      ".mp4" ≠ "my-mp4-clip.mp4" := by
  exact ⟨by decide, by decide⟩

/-- C9 (amended): the output name is always `<base>.<ext>` where the base
is `rename_to` unchanged when the extension string does not occur inside
`rename_to` at all, and `rename_to` with its last dot-component dropped
whenever the extension string occurs anywhere in `rename_to` as a substring
(so names merely containing the extension string are also stripped). -/
theorem output_name_strip (fileext rename_to : String) :
    (pyIn fileext rename_to = false →
      output_name fileext rename_to = rename_to ++ "." ++ fileext) ∧
    (pyIn fileext rename_to = true →
      output_name fileext rename_to =
        joinDot ((pySplitDot rename_to).dropLast) ++ "." ++ fileext) ∧
    (pyIn fileext rename_to = true ↔ fileext.toList <:+: rename_to.toList) := by
  refine ⟨?_, ?_, ?_⟩
  · intro h
    simp [output_name, h]
  · intro h
    simp [output_name, h]
  · simp [pyIn]

/-- Witness for the strip theorem: a base not containing the extension is
kept as is; a generated `clip-0.mp4` name round-trips unchanged. -/
theorem output_name_strip_witness :
    output_name "mp4" "part1" = "part1.mp4" ∧
      output_name "mp4" "clip-0.mp4" = "clip-0.mp4" := by
  constructor
  · exact ((output_name_strip "mp4" "part1").1 (by decide)).trans (by decide)
  · exact ((output_name_strip "mp4" "clip-0.mp4").2.1 (by decide)).trans (by decide)

/-- C5: for a structured JSON manifest, the resolved filename is
`input_file` unless the caller already supplied a truthy filename
(caller-supplied wins); `output_clips[i]` becomes a config item with
`start_time` and `length` copied from the clip and name
`clip-<i>.<ext>` of the resolved filename's extension; and the spec's
round-trip example produces exactly the two expected descriptors. -/
theorem structured_manifest_resolution (caller : Option String) (m : StructuredManifest) :
    (∀ f, caller = some f → f ≠ "" → (resolve_structured caller m).1 = f) ∧
    (caller = none ∨ caller = some "" → (resolve_structured caller m).1 = m.input_file) ∧
    (∀ i, i < m.output_clips.length →
      (resolve_structured caller m).2.getD i ⟨0, 0, ""⟩ =
        { start_time := (m.output_clips.getD i ⟨0, 0⟩).start_time
          length := (m.output_clips.getD i ⟨0, 0⟩).length
          rename_to := "clip-" ++ toString i ++ "." ++
            (pySplitDot (resolve_structured caller m).1).getLastD "" }) ∧
    split_by_manifest_structured none ⟨"in.mp4", [⟨0, 5⟩, ⟨5, 5⟩]⟩ =
      ("in.mp4", [⟨0, 5, "clip-0.mp4"⟩, ⟨5, 5, "clip-1.mp4"⟩]) := by
  refine ⟨?_, ?_, ?_, by decide⟩
  · intro f hc hne
    subst hc
    simp [resolve_structured, hne]
  · rintro (hc | hc) <;> subst hc <;> simp [resolve_structured]
  · intro i hi
    simp only [resolve_structured, List.getD_eq_getElem?_getD, List.getElem?_map,
      List.enum, List.getElem?_enumFrom, List.getElem?_eq_getElem hi]
    simp

/-- Witness for the structured-manifest theorem: a caller-supplied filename
wins over the manifest's `input_file`, an absent one defers to it, and the
clip at index 0 carries its manifest values with the generated name. -/
theorem structured_manifest_resolution_witness :
    (resolve_structured (some "override.avi") ⟨"in.mp4", [⟨0, 5⟩]⟩).1 = "override.avi" ∧
      (resolve_structured none ⟨"in.mp4", [⟨0, 5⟩]⟩).1 = "in.mp4" ∧
      (resolve_structured none ⟨"in.mp4", [⟨0, 5⟩]⟩).2.getD 0 ⟨0, 0, ""⟩ =
        { start_time := 0, length := 5
          rename_to := "clip-" ++ toString 0 ++ "." ++
            (pySplitDot (resolve_structured none ⟨"in.mp4", [⟨0, 5⟩]⟩).1).getLastD "" } := by
  refine ⟨?_, ?_, ?_⟩
  · exact (structured_manifest_resolution (some "override.avi")
      ⟨"in.mp4", [⟨0, 5⟩]⟩).1 "override.avi" rfl (by decide)
  · exact (structured_manifest_resolution none ⟨"in.mp4", [⟨0, 5⟩]⟩).2.1 (Or.inl rfl)
  · exact (structured_manifest_resolution none ⟨"in.mp4", [⟨0, 5⟩]⟩).2.2.1 0 (by decide)

/-- The comparison loop finds no mismatch when every asset matches the
reference on codec, width and height. -/
theorem first_mismatch_none (reference : MediaAsset) (l : List MediaAsset)
    (h : ∀ a ∈ l, a.codec_name = reference.codec_name ∧
      a.width = reference.width ∧ a.height = reference.height) :
    first_mismatch reference l = none := by
  induction l with
  | nil => rfl
  | cons x xs ih =>
    obtain ⟨hc, hw, hh⟩ := h x (List.mem_cons_self x xs)
    simpa [first_mismatch, hc, hw, hh] using
      ih fun a ha => h a (List.mem_cons_of_mem _ ha)

/-- The comparison loop reports the first mismatching asset, in input
order, and never looks past it: with all of `pre` matching and `bad`
differing from the reference in width only, the reported reason is the
resolution reason for `bad`, whatever `post` contains. -/
theorem first_mismatch_first (reference bad : MediaAsset) (pre post : List MediaAsset)
    (hpre : ∀ a ∈ pre, a.codec_name = reference.codec_name ∧
      a.width = reference.width ∧ a.height = reference.height)
    (hc : bad.codec_name = reference.codec_name)
    (hw : bad.width ≠ reference.width) :
    first_mismatch reference (pre ++ bad :: post) =
      some ("Incompatible resolution: " ++ toString reference.width ++ "x" ++
        toString reference.height ++ " vs " ++ toString bad.width ++ "x" ++
        toString bad.height) := by
  induction pre with
  | nil => simp [first_mismatch, hc, hw]
  | cons x xs ih =>
    obtain ⟨hc2, hw2, hh2⟩ := hpre x (List.mem_cons_self x xs)
    simpa [first_mismatch, hc2, hw2, hh2] using
      ih fun a ha => hpre a (List.mem_cons_of_mem _ ha)

/-- The comparison loop never reads `format_name`: rewriting the format of
every asset (and of the reference, which keeps its comparison fields)
leaves the outcome unchanged. -/
theorem first_mismatch_map_format (reference reference2 : MediaAsset)
    (g : MediaAsset → String) (l : List MediaAsset)
    (h1 : reference2.codec_name = reference.codec_name)
    (h2 : reference2.width = reference.width)
    (h3 : reference2.height = reference.height) :
    first_mismatch reference2 (l.map fun a => { a with format_name := g a }) =
      first_mismatch reference l := by
  induction l with
  | nil => rfl
  | cons x xs ih =>
    by_cases hc : x.codec_name = reference.codec_name
    · by_cases hw : x.width = reference.width
      · by_cases hh : x.height = reference.height
        · simpa [first_mismatch, h1, h2, h3, hc, hw, hh] using ih
        · simp [first_mismatch, h1, h2, h3, hc, hw, hh]
      · simp [first_mismatch, h1, h2, h3, hc, hw]
    · simp [first_mismatch, h1, h2, h3, hc]

/-- C4: on a nonempty asset list all sharing `(codec_name, width, height)`
the check returns `Compatible` with the assets in input order; if one
asset's width differs from the first (reference) asset while everything
before it matches, the check returns `Incompatible` with the resolution
reason naming both conflicting resolutions, decided by that first mismatch
and independent of everything after it; and `format_name` is never
compared — rewriting every asset's format leaves the outcome unchanged. -/
theorem check_videos_compatibility_spec :
    (∀ (infos : List MediaAsset) (c : String) (w h : Int),
      infos ≠ [] →
      (∀ a ∈ infos, a.codec_name = c ∧ a.width = w ∧ a.height = h) →
      check_videos_compatibility infos = .compatible infos) ∧
    (∀ (reference bad : MediaAsset) (pre post : List MediaAsset),
      (∀ a ∈ pre, a.codec_name = reference.codec_name ∧
        a.width = reference.width ∧ a.height = reference.height) →
      bad.codec_name = reference.codec_name →
      bad.width ≠ reference.width →
      check_videos_compatibility (reference :: (pre ++ bad :: post)) =
        .incompatible ("Incompatible resolution: " ++ toString reference.width ++ "x" ++
          toString reference.height ++ " vs " ++ toString bad.width ++ "x" ++
          toString bad.height)) ∧
    (∀ (infos : List MediaAsset) (g : MediaAsset → String),
      check_videos_compatibility (infos.map fun a => { a with format_name := g a }) =
        match check_videos_compatibility infos with
        | .compatible l => .compatible (l.map fun a => { a with format_name := g a })
        | .incompatible r => .incompatible r) := by
  refine ⟨?_, ?_, ?_⟩
  · intro infos c w h hne hall
    match infos with
    | [] => exact absurd rfl hne
    | reference :: rest =>
      obtain ⟨hrc, hrw, hrh⟩ := hall reference (List.mem_cons_self _ _)
      have hmm : first_mismatch reference rest = none := by
        apply first_mismatch_none
        intro a ha
        obtain ⟨hac, haw, hah⟩ := hall a (List.mem_cons_of_mem _ ha)
        exact ⟨by rw [hac, hrc], by rw [haw, hrw], by rw [hah, hrh]⟩
      simp [check_videos_compatibility, hmm]
  · intro reference bad pre post hpre hc hw
    have hmm := first_mismatch_first reference bad pre post hpre hc hw
    simp [check_videos_compatibility, hmm]
  · intro infos g
    match infos with
    | [] => rfl
    | reference :: rest =>
      have hmm := first_mismatch_map_format reference
        { reference with format_name := g reference } g rest rfl rfl rfl
      simp only [List.map_cons, check_videos_compatibility, hmm]
      cases hfm : first_mismatch reference rest <;> simp

/-- Witness for the compatibility theorem: two assets sharing codec and
resolution (formats differ) are compatible in input order; changing the
second asset's width yields the resolution reason with both values. -/
theorem check_videos_compatibility_spec_witness :
    check_videos_compatibility
        [⟨"h264", 1920, 1080, "mp4", "a.mp4"⟩, ⟨"h264", 1920, 1080, "mkv", "b.mp4"⟩] =
      CompatResult.compatible
        [⟨"h264", 1920, 1080, "mp4", "a.mp4"⟩, ⟨"h264", 1920, 1080, "mkv", "b.mp4"⟩] ∧
      check_videos_compatibility
          [⟨"h264", 1920, 1080, "mp4", "a.mp4"⟩, ⟨"h264", 1280, 1080, "mp4", "b.mp4"⟩] =
        CompatResult.incompatible "Incompatible resolution: 1920x1080 vs 1280x1080" := by
  constructor
  · exact check_videos_compatibility_spec.1
      [⟨"h264", 1920, 1080, "mp4", "a.mp4"⟩, ⟨"h264", 1920, 1080, "mkv", "b.mp4"⟩]
      "h264" 1920 1080 (by decide) (by decide)
  · exact (check_videos_compatibility_spec.2.1
      ⟨"h264", 1920, 1080, "mp4", "a.mp4"⟩ ⟨"h264", 1280, 1080, "mp4", "b.mp4"⟩
      [] [] (by simp) rfl (by decide)).trans (by decide)

/-- C10: in every merge run the transient concat list is created once,
consumed by exactly one transcoder invocation, and removed afterwards on
both the success path and the transcode-failure path; the temp resource no
longer exists when `merge_videos` returns, and the returned flag reflects
the transcoder's outcome. -/
theorem merge_videos_lifecycle (video_infos : List MediaAsset)
    (transcode_succeeds : Bool) :
    (merge_videos video_infos transcode_succeeds).1 =
      [MergeEvent.createConcatList
          (video_infos.map fun info => concat_line info.file_path),
        MergeEvent.invokeTranscoder, MergeEvent.removeConcatList] ∧
      tempExistsAfter (merge_videos video_infos transcode_succeeds).1 = false ∧
      (merge_videos video_infos transcode_succeeds).2 = transcode_succeeds := by
  cases transcode_succeeds <;> exact ⟨rfl, rfl, rfl⟩

end VideoSplitter
